import Mathlib

/- Shallow embedding of the session-persistence and vector-retrieval core of the
AI-Multi-Tool-Assistant backend: app/services/storage.py, app/services/rag.py,
app/services/code_notes.py, app/core/code_notes.py and
app/api/v1/routes/chat.py.  Timestamps (datetime.now().isoformat()) are
modelled as an explicit natural-number parameter `now`; Python dicts are
modelled as insertion-ordered association lists; file-system side effects are
modelled either as explicit state fields or as traces of file operations. -/

namespace AIAssist

/-- Association-list lookup, modelling Python dict access (`d[k]` / `d.get(k)`). -/
def lookupA {κ α : Type} [DecidableEq κ] (k : κ) : List (κ × α) → Option α
  | [] => none
  | p :: rest => if p.1 = k then some p.2 else lookupA k rest

/-- Python dict assignment `d[k] = v`: replace the value in place if the key is
present (insertion order preserved), otherwise append the binding at the end. -/
def insertA {κ α : Type} [DecidableEq κ] (k : κ) (v : α) : List (κ × α) → List (κ × α)
  | [] => [(k, v)]
  | p :: rest => if p.1 = k then (k, v) :: rest else p :: insertA k v rest

/-- Python `del d[k]` (also used for `unlink` of a keyed file). -/
def eraseA {κ α : Type} [DecidableEq κ] (k : κ) (l : List (κ × α)) : List (κ × α) :=
  l.filter fun p => decide (p.1 ≠ k)

/-- Python `k in d`. -/
def memA {κ α : Type} [DecidableEq κ] (k : κ) (l : List (κ × α)) : Bool :=
  (lookupA k l).isSome

theorem lookupA_insertA_self {κ α : Type} [DecidableEq κ] (k : κ) (v : α)
    (l : List (κ × α)) : lookupA k (insertA k v l) = some v := by
  induction l with
  | nil => simp [insertA, lookupA]
  | cons p rest ih =>
    by_cases h : p.1 = k
    · simp [insertA, h, lookupA]
    · simp [insertA, h, lookupA, ih]

theorem lookupA_insertA_ne {κ α : Type} [DecidableEq κ] {k k' : κ} (v : α)
    (l : List (κ × α)) (h : k' ≠ k) :
    lookupA k' (insertA k v l) = lookupA k' l := by
  induction l with
  | nil => simp [insertA, lookupA, Ne.symm h]
  | cons p rest ih =>
    by_cases hp : p.1 = k
    · subst hp
      simp [insertA, lookupA, Ne.symm h, h]
    · by_cases hp' : p.1 = k'
      · simp [insertA, hp, lookupA, hp', h]
      · simp [insertA, hp, lookupA, hp', ih]

theorem lookupA_eraseA_self {κ α : Type} [DecidableEq κ] (k : κ)
    (l : List (κ × α)) : lookupA k (eraseA k l) = none := by
  induction l with
  | nil => simp [eraseA, lookupA]
  | cons p rest ih =>
    by_cases h : p.1 = k
    · simpa [eraseA, h] using ih
    · simpa [eraseA, h, lookupA] using ih

theorem lookupA_eraseA_ne {κ α : Type} [DecidableEq κ] {k k' : κ}
    (l : List (κ × α)) (h : k' ≠ k) :
    lookupA k' (eraseA k l) = lookupA k' l := by
  induction l with
  | nil => simp [eraseA, lookupA]
  | cons p rest ih =>
    by_cases hp : p.1 = k
    · have hp' : p.1 ≠ k' := by rw [hp]; exact Ne.symm h
      simpa [eraseA, List.filter_cons, hp, lookupA, hp', Ne.symm h] using ih
    · by_cases hp' : p.1 = k'
      · simp [eraseA, List.filter_cons, hp, lookupA, hp', h]
      · simpa [eraseA, List.filter_cons, hp, lookupA, hp'] using ih

/- ----------------------------------------------------------------------
File-system operation traces, for the atomic temp-file/rename discipline
(claim about storage.save_individual_session / save_session_index versus
rag.save_session_data / save_vector_store).
---------------------------------------------------------------------- -/

/-- A file-system mutation: a direct write (Python `open(path, "w")` +
`dump`), a rename (`Path.replace`), or an unlink. -/
inductive FsOp where
  | write (path : String)
  | rename (src dst : String)
  | unlink (path : String)
deriving DecidableEq, Repr

/-- Canonical chat session file path (storage.get_session_file_path). -/
def chatSessionPath (sid : String) : String :=
  "chat_data/sessions/session_" ++ sid ++ ".json"

/-- Temp path produced by `session_file.with_suffix(".tmp")`. -/
def chatSessionTmpPath (sid : String) : String :=
  "chat_data/sessions/session_" ++ sid ++ ".tmp"

/-- Canonical aggregate index path (settings.SESSION_INDEX_FILE). -/
def sessionIndexPath : String := "chat_data/session_index.json"

/-- Its temp path (`SESSION_INDEX_FILE.with_suffix(".tmp")`). -/
def sessionIndexTmpPath : String := "chat_data/session_index.tmp"

/-- Canonical RAG session file path (rag.save_session_data). -/
def ragSessionPath (sid : String) : String :=
  "rag_data/sessions/" ++ sid ++ ".json"

/-- RAG FAISS index artifact path (rag.save_vector_store). -/
def ragVectorPath (sid : String) : String :=
  "rag_data/vectors/" ++ sid ++ ".faiss"

/-- RAG metadata artifact path (rag.save_vector_store). -/
def ragMetadataPath (sid : String) : String :=
  "rag_data/vectors/" ++ sid ++ "_metadata.pkl"

/-- File operations performed by storage.save_individual_session (lines 62-84):
write the full JSON to the temp path, then `temp_file.replace(session_file)`. -/
def save_individual_session_fsTrace (sid : String) : List FsOp :=
  [FsOp.write (chatSessionTmpPath sid),
   FsOp.rename (chatSessionTmpPath sid) (chatSessionPath sid)]

/-- File operations performed by storage.save_session_index (lines 29-47). -/
def save_session_index_fsTrace : List FsOp :=
  [FsOp.write sessionIndexTmpPath,
   FsOp.rename sessionIndexTmpPath sessionIndexPath]

/-- File operations performed by rag.save_session_data (lines 194-199): a
single direct `open(session_file, "w")` + `json.dump` on the canonical path. -/
def rag_save_session_data_fsTrace (sid : String) : List FsOp :=
  [FsOp.write (ragSessionPath sid)]

/-- File operations performed by rag.save_vector_store (lines 213-220):
`faiss.write_index` and a direct pickle dump, both on canonical paths. -/
def rag_save_vector_store_fsTrace (sid : String) : List FsOp :=
  [FsOp.write (ragVectorPath sid), FsOp.write (ragMetadataPath sid)]

/-- A trace commits `canonical` atomically: the canonical path is never the
target of a direct write, and it is produced by renaming some temp path over
it. -/
def commitsAtomically (canonical : String) (tr : List FsOp) : Prop :=
  FsOp.write canonical ∉ tr ∧ ∃ tmp, FsOp.rename tmp canonical ∈ tr

theorem chatSessionTmpPath_ne_chatSessionPath (sid : String) :
    chatSessionTmpPath sid ≠ chatSessionPath sid := by
  intro h
  have hlen := congrArg String.length h
  simp [chatSessionTmpPath, chatSessionPath, String.length_append] at hlen
  exact absurd hlen (by decide)

theorem sessionIndexTmpPath_ne_sessionIndexPath :
    sessionIndexTmpPath ≠ sessionIndexPath := by
  decide

/-- C1 counterexample: rag.save_session_data (rag.py lines 194-199) writes the
canonical RAG session file directly with `open(session_file, "w")` — no temp
path and no rename — so the claimed temp-write/atomic-rename discipline does
not hold for every write path in scope. -/
theorem C1_rag_direct_write_counterexample :
    ¬ commitsAtomically (ragSessionPath "s1") (rag_save_session_data_fsTrace "s1") := by
  intro h
  have hmem := h.1
  simp [rag_save_session_data_fsTrace] at hmem

/-- C1 (amended): the chat-subsystem writes (the individual session file in
storage.save_individual_session and the session index in
storage.save_session_index) are committed atomically by writing a temp file and
renaming it over the canonical path, while the RAG session file
(rag.save_session_data) and both vector-store artifacts (rag.save_vector_store)
are written directly to their canonical paths with no rename anywhere in their
traces. -/
theorem C1_atomic_write_amended (sid : String) :
    commitsAtomically (chatSessionPath sid) (save_individual_session_fsTrace sid) ∧
    commitsAtomically sessionIndexPath save_session_index_fsTrace ∧
    FsOp.write (ragSessionPath sid) ∈ rag_save_session_data_fsTrace sid ∧
    (∀ tmp dst, FsOp.rename tmp dst ∉ rag_save_session_data_fsTrace sid) ∧
    FsOp.write (ragVectorPath sid) ∈ rag_save_vector_store_fsTrace sid ∧
    FsOp.write (ragMetadataPath sid) ∈ rag_save_vector_store_fsTrace sid ∧
    (∀ tmp dst, FsOp.rename tmp dst ∉ rag_save_vector_store_fsTrace sid) := by
  refine ⟨⟨?_, chatSessionTmpPath sid, ?_⟩, ⟨?_, sessionIndexTmpPath, ?_⟩,
    ?_, ?_, ?_, ?_, ?_⟩
  · simp [save_individual_session_fsTrace,
      (chatSessionTmpPath_ne_chatSessionPath sid).symm]
  · simp [save_individual_session_fsTrace]
  · simp [save_session_index_fsTrace, sessionIndexTmpPath_ne_sessionIndexPath.symm]
  · simp [save_session_index_fsTrace]
  · simp [rag_save_session_data_fsTrace]
  · intro tmp dst
    simp [rag_save_session_data_fsTrace]
  · simp [rag_save_vector_store_fsTrace]
  · simp [rag_save_vector_store_fsTrace]
  · intro tmp dst
    simp [rag_save_vector_store_fsTrace]

/- ----------------------------------------------------------------------
Chat session storage (app/services/storage.py): the in-memory cache
(settings.chat_sessions), the in-memory index (settings.session_index),
the per-session durable files and the aggregate index file.
---------------------------------------------------------------------- -/

/-- One chat message, as stored in a session's `messages` list. -/
structure ChatMessage where
  role : String
  content : String
  timestamp : Nat
deriving DecidableEq, Repr

/-- A chat session record (the JSON dict persisted per session file).  The
`modified` field models the optional `_modified` key (`none` = key absent),
and `last_accessed` models the optional `last_accessed` key. -/
structure ChatSessionRec where
  caption : String
  created_at : Nat
  last_accessed : Option Nat
  messages : List ChatMessage
  modified : Option Bool
deriving DecidableEq, Repr

/-- An entry of settings.session_index, as built by save_individual_session. -/
structure IndexEntry where
  caption : String
  created_at : Nat
  last_accessed : Nat
  message_count : Nat
  last_saved : Nat
deriving DecidableEq, Repr

/-- Content of the aggregate session_index.json file (save_session_index). -/
structure IndexFileData where
  sessions : List (String × IndexEntry)
  last_saved : Nat
  total_sessions : Nat
deriving DecidableEq, Repr

/-- The storage-relevant process state: the two in-memory dicts plus the
durable artifacts. -/
structure StorageState where
  chat_sessions : List (String × ChatSessionRec)
  session_index : List (String × IndexEntry)
  sessionFiles : List (String × ChatSessionRec)
  indexFile : Option IndexFileData
deriving DecidableEq, Repr

/-- Events recorded alongside storage transitions: a per-entity durable
write, the aggregate index write, and a durable per-entity read. -/
inductive StoreEvent where
  | entityWrite (sid : String)
  | indexWrite
  | diskRead (sid : String)
deriving DecidableEq, Repr

/-- storage.save_individual_session (lines 62-84): dump the full record to
the session file, then refresh the in-memory index entry. -/
def save_individual_session (now : Nat) (sid : String) (data : ChatSessionRec)
    (st : StorageState) : StorageState :=
  let entry : IndexEntry :=
    { caption := data.caption,
      created_at := data.created_at,
      last_accessed := data.last_accessed.getD data.created_at,
      message_count := data.messages.length,
      last_saved := now }
  { st with
    sessionFiles := insertA sid data st.sessionFiles,
    session_index := insertA sid entry st.session_index }

/-- storage.load_individual_session (lines 49-60). -/
def load_individual_session (sid : String) (st : StorageState) :
    Option ChatSessionRec :=
  lookupA sid st.sessionFiles

/-- storage.save_session_index (lines 29-47): rewrite the aggregate file from
the in-memory index, stamping the current time and the session count. -/
def save_session_index (now : Nat) (st : StorageState) : StorageState :=
  let content : IndexFileData :=
    { sessions := st.session_index,
      last_saved := now,
      total_sessions := st.session_index.length }
  { st with indexFile := some content }

/-- One iteration of the save_sessions loop (storage.py lines 117-120): if
`session_data.get('_modified', True)` the record is flushed and its dirty
flag is then cleared in the cache. -/
def flushStep (now : Nat) (acc : StorageState × List StoreEvent)
    (p : String × ChatSessionRec) : StorageState × List StoreEvent :=
  if p.2.modified.getD true then
    let st' := save_individual_session now p.1 p.2 acc.1
    let cleaned : ChatSessionRec := { p.2 with modified := some false }
    ({ st' with chat_sessions := insertA p.1 cleaned st'.chat_sessions },
     acc.2 ++ [StoreEvent.entityWrite p.1])
  else acc

/-- storage.save_sessions (lines 114-125): flush every modified cached
session, then save the index; the produced durable-write events are
returned with the new state. -/
def save_sessions (now : Nat) (st : StorageState) :
    StorageState × List StoreEvent :=
  let r := st.chat_sessions.foldl (flushStep now) (st, [])
  (save_session_index now r.1, r.2 ++ [StoreEvent.indexWrite])

/-- storage.get_session_lazy (lines 101-112): serve from the cache when
present, otherwise read the session file when the id is indexed, caching a
successful read; returns the result, the new state and the disk reads. -/
def get_session_lazy (sid : String) (st : StorageState) :
    Option ChatSessionRec × StorageState × List StoreEvent :=
  match lookupA sid st.chat_sessions with
  | some s => (some s, st, [])
  | none =>
    if (lookupA sid st.session_index).isSome then
      match load_individual_session sid st with
      | some data =>
        (some data,
         { st with chat_sessions := insertA sid data st.chat_sessions },
         [StoreEvent.diskRead sid])
      | none => (none, st, [StoreEvent.diskRead sid])
    else (none, st, [])

/-- Chat route delete_session (app/api/v1/routes/chat.py lines 167-189):
drop the cache entry, the index entry and the session file, then persist
the index. -/
def delete_session_route (now : Nat) (sid : String) (st : StorageState) :
    StorageState :=
  let st1 := { st with chat_sessions := eraseA sid st.chat_sessions }
  let st2 := { st1 with session_index := eraseA sid st1.session_index }
  let st3 := { st2 with sessionFiles := eraseA sid st2.sessionFiles }
  save_session_index now st3

theorem lookupA_mem {κ α : Type} [DecidableEq κ] {k : κ} {v : α}
    {l : List (κ × α)} (h : lookupA k l = some v) : (k, v) ∈ l := by
  induction l with
  | nil => simp [lookupA] at h
  | cons p rest ih =>
    obtain ⟨pk, pv⟩ := p
    by_cases hp : pk = k
    · subst hp
      simp [lookupA] at h
      subst h
      exact List.mem_cons_self _ _
    · simp [lookupA, hp] at h
      exact List.mem_cons_of_mem _ (ih h)

theorem keys_insertA {κ α : Type} [DecidableEq κ] (k : κ) (v : α)
    (l : List (κ × α)) :
    (insertA k v l).map Prod.fst =
      if k ∈ l.map Prod.fst then l.map Prod.fst else l.map Prod.fst ++ [k] := by
  induction l with
  | nil => simp [insertA]
  | cons p rest ih =>
    by_cases hp : p.1 = k
    · simp [insertA, hp]
    · by_cases hk : k ∈ rest.map Prod.fst
      · simp [insertA, hp, ih, hk, Ne.symm hp]
      · simp [insertA, hp, ih, hk, Ne.symm hp]

theorem nodup_keys_insertA {κ α : Type} [DecidableEq κ] (k : κ) (v : α)
    {l : List (κ × α)} (h : (l.map Prod.fst).Nodup) :
    ((insertA k v l).map Prod.fst).Nodup := by
  rw [keys_insertA]
  split
  · exact h
  · next hk => simp [List.nodup_append, h, hk]

theorem mem_insertA_of_nodup {κ α : Type} [DecidableEq κ] {k : κ} {v : α}
    {l : List (κ × α)} (hnd : (l.map Prod.fst).Nodup) {q : κ × α}
    (hq : q ∈ insertA k v l) : q = (k, v) ∨ (q ∈ l ∧ q.1 ≠ k) := by
  induction l with
  | nil =>
    simp [insertA] at hq
    exact Or.inl hq
  | cons p rest ih =>
    rw [List.map_cons, List.nodup_cons] at hnd
    by_cases hp : p.1 = k
    · rw [insertA, if_pos hp] at hq
      rcases List.mem_cons.1 hq with h1 | h2
      · exact Or.inl h1
      · refine Or.inr ⟨List.mem_cons_of_mem _ h2, ?_⟩
        intro hqk
        apply hnd.1
        have hmm : q.1 ∈ rest.map Prod.fst := List.mem_map_of_mem Prod.fst h2
        rw [hqk, ← hp] at hmm
        exact hmm
    · rw [insertA, if_neg hp] at hq
      rcases List.mem_cons.1 hq with h1 | h2
      · subst h1
        exact Or.inr ⟨List.mem_cons_self _ _, hp⟩
      · rcases ih hnd.2 h2 with h | ⟨hm, hne⟩
        · exact Or.inl h
        · exact Or.inr ⟨List.mem_cons_of_mem _ hm, hne⟩

/-- A clean entry (with `_modified = False`) is skipped by the flush loop. -/
theorem flushStep_clean (now : Nat) (acc : StorageState × List StoreEvent)
    (p : String × ChatSessionRec) (hp : p.2.modified = some false) :
    flushStep now acc p = acc := by
  simp [flushStep, hp]

/-- The flush loop is the identity on a list of clean entries. -/
theorem foldl_flushStep_clean (now : Nat) :
    ∀ (l : List (String × ChatSessionRec)) (acc : StorageState × List StoreEvent),
      (∀ p ∈ l, p.2.modified = some false) →
      l.foldl (flushStep now) acc = acc
  | [], _, _ => rfl
  | p :: rest, acc, h => by
    rw [List.foldl_cons, flushStep_clean now acc p (h p (List.mem_cons_self _ _))]
    exact foldl_flushStep_clean now rest acc
      (fun q hq => h q (List.mem_cons_of_mem _ hq))

/-- After the flush loop every cached record is clean, provided every cached
record was either already clean or still pending in the iteration list. -/
theorem foldl_flushStep_all_clean (now : Nat) :
    ∀ (l : List (String × ChatSessionRec)) (acc : StorageState × List StoreEvent),
      (acc.1.chat_sessions.map Prod.fst).Nodup →
      (∀ q ∈ acc.1.chat_sessions, q.2.modified = some false ∨ q ∈ l) →
      ∀ q ∈ (l.foldl (flushStep now) acc).1.chat_sessions,
        q.2.modified = some false
  | [], acc, _, hinv, q, hq => by
    rcases hinv q hq with h | h
    · exact h
    · simp at h
  | p :: rest, acc, hnd, hinv, q, hq => by
    rw [List.foldl_cons] at hq
    by_cases hdirty : p.2.modified.getD true
    · have hstep : flushStep now acc p =
        ({ save_individual_session now p.1 p.2 acc.1 with
            chat_sessions := insertA p.1 { p.2 with modified := some false }
              (save_individual_session now p.1 p.2 acc.1).chat_sessions },
         acc.2 ++ [StoreEvent.entityWrite p.1]) := by
        simp [flushStep, hdirty]
      refine foldl_flushStep_all_clean now rest (flushStep now acc p) ?_ ?_ q hq
      · rw [hstep]
        exact nodup_keys_insertA _ _ hnd
      · intro q' hq'
        rw [hstep] at hq'
        rcases mem_insertA_of_nodup hnd hq' with h1 | ⟨h2, hne⟩
        · left
          rw [h1]
        · rcases hinv q' h2 with h | h
          · exact Or.inl h
          · rcases List.mem_cons.1 h with h3 | h3
            · exact absurd (congrArg Prod.fst h3) hne
            · exact Or.inr h3
    · have hclean : p.2.modified = some false := by
        cases hm : p.2.modified with
        | none => rw [hm] at hdirty; simp at hdirty
        | some b =>
          rw [hm] at hdirty
          simp at hdirty
          rw [hdirty]
      rw [flushStep_clean now acc p hclean] at hq
      refine foldl_flushStep_all_clean now rest acc hnd ?_ q hq
      intro q' hq'
      rcases hinv q' hq' with h | h
      · exact Or.inl h
      · rcases List.mem_cons.1 h with h3 | h3
        · left
          rw [h3, hclean]
        · exact Or.inr h3

/-- The flush loop does not touch lookups at a key absent from the pending
list. -/
theorem foldl_flushStep_preserve (now : Nat) :
    ∀ (l : List (String × ChatSessionRec)) (acc : StorageState × List StoreEvent)
      (sid : String), sid ∉ l.map Prod.fst →
      lookupA sid (l.foldl (flushStep now) acc).1.sessionFiles
          = lookupA sid acc.1.sessionFiles ∧
      lookupA sid (l.foldl (flushStep now) acc).1.chat_sessions
          = lookupA sid acc.1.chat_sessions
  | [], acc, sid, _ => ⟨rfl, rfl⟩
  | p :: rest, acc, sid, h => by
    rw [List.map_cons] at h
    have hne : sid ≠ p.1 := fun hh => h (hh ▸ List.mem_cons_self _ _)
    have hrest : sid ∉ rest.map Prod.fst := fun hh => h (List.mem_cons_of_mem _ hh)
    rw [List.foldl_cons]
    have ih := foldl_flushStep_preserve now rest (flushStep now acc p) sid hrest
    by_cases hdirty : p.2.modified.getD true
    · refine ⟨?_, ?_⟩
      · rw [ih.1]
        simp [flushStep, hdirty, save_individual_session,
          lookupA_insertA_ne _ _ hne]
      · rw [ih.2]
        simp [flushStep, hdirty, save_individual_session,
          lookupA_insertA_ne _ _ hne]
    · have hstep : flushStep now acc p = acc := by simp [flushStep, hdirty]
      rw [hstep]
      exact foldl_flushStep_preserve now rest acc sid hrest

/-- Every cached record is clean after save_sessions. -/
theorem save_sessions_all_clean (now : Nat) (st : StorageState)
    (hnd : (st.chat_sessions.map Prod.fst).Nodup) :
    ∀ q ∈ (save_sessions now st).1.chat_sessions, q.2.modified = some false :=
  fun q hq =>
    foldl_flushStep_all_clean now st.chat_sessions (st, []) hnd
      (fun _ hq' => Or.inr hq') q hq

/-- C4 (amended): flushing a dirty cached entity writes the record as it was
at flush time — including the `_modified: True` key, which IS persisted in
the durable record — and then clears the cached copy's dirty flag, so a
fresh-cache read returns a record that differs from the post-flush cached
entity only in the dirty flag. -/
theorem C4_put_flush_read_amended (st : StorageState) (now : Nat)
    (sid : String) (e : ChatSessionRec)
    (hnd : (st.chat_sessions.map Prod.fst).Nodup)
    (hmem : lookupA sid st.chat_sessions = some e)
    (hdirty : e.modified = some true) :
    load_individual_session sid (save_sessions now st).1 = some e ∧
    lookupA sid (save_sessions now st).1.chat_sessions
      = some { e with modified := some false } ∧
    (load_individual_session sid (save_sessions now st).1).map
      ChatSessionRec.modified = some (some true) := by
  obtain ⟨l1, l2, hsplit⟩ := List.append_of_mem (lookupA_mem hmem)
  have hnotl2 : sid ∉ l2.map Prod.fst := by
    rw [hsplit] at hnd
    simp only [List.map_append, List.map_cons] at hnd
    have := (List.nodup_append.1 hnd).2.1
    exact (List.nodup_cons.1 this).1
  have hfold :
      st.chat_sessions.foldl (flushStep now) (st, [])
        = l2.foldl (flushStep now)
            (flushStep now (l1.foldl (flushStep now) (st, [])) (sid, e)) := by
    rw [hsplit, List.foldl_append, List.foldl_cons]
  have hstep : flushStep now (l1.foldl (flushStep now) (st, [])) (sid, e)
      = ({ save_individual_session now sid e (l1.foldl (flushStep now) (st, [])).1 with
            chat_sessions := insertA sid { e with modified := some false }
              (save_individual_session now sid e
                (l1.foldl (flushStep now) (st, [])).1).chat_sessions },
         (l1.foldl (flushStep now) (st, [])).2 ++ [StoreEvent.entityWrite sid]) := by
    simp [flushStep, hdirty]
  have hpres := foldl_flushStep_preserve now l2
    (flushStep now (l1.foldl (flushStep now) (st, [])) (sid, e)) sid hnotl2
  have hfiles : load_individual_session sid (save_sessions now st).1 = some e := by
    show lookupA sid
      (st.chat_sessions.foldl (flushStep now) (st, [])).1.sessionFiles = some e
    rw [hfold, hpres.1, hstep]
    simp [save_individual_session, lookupA_insertA_self]
  refine ⟨hfiles, ?_, by rw [hfiles]; simp [hdirty]⟩
  show lookupA sid
    (st.chat_sessions.foldl (flushStep now) (st, [])).1.chat_sessions = some _
  rw [hfold, hpres.2, hstep]
  simp [lookupA_insertA_self]

/-- Concrete session record used as a flush witness. -/
def chatRec0 : ChatSessionRec :=
  { caption := "Hello", created_at := 1, last_accessed := some 2,
    messages := [{ role := "user", content := "hi", timestamp := 1 }],
    modified := some true }

/-- Concrete one-session storage state with a dirty cached entity. -/
def stOne : StorageState :=
  { chat_sessions := [("s1", chatRec0)], session_index := [],
    sessionFiles := [], indexFile := none }

theorem C4_witness :
    load_individual_session "s1" (save_sessions 7 stOne).1 = some chatRec0 ∧
    lookupA "s1" (save_sessions 7 stOne).1.chat_sessions
      = some { chatRec0 with modified := some false } ∧
    (load_individual_session "s1" (save_sessions 7 stOne).1).map
      ChatSessionRec.modified = some (some true) :=
  C4_put_flush_read_amended stOne 7 "s1" chatRec0 (by decide)
    (by decide) (by decide)

/-- C4 counterexample: contrary to the claim that the dirty flag is "not
persisted in the durable record", the flushed file for the concrete dirty
session stOne/"s1" contains the `_modified` key with value True — the record
is dumped before the flag is cleared, so the flag is persisted. -/
theorem C4_dirty_flag_persisted_counterexample :
    (load_individual_session "s1" (save_sessions 7 stOne).1).map
      ChatSessionRec.modified = some (some true) := by
  decide

/-- C5 (amended): a second save_sessions call with no intervening mutation
performs no entity-file write (every cached record is clean after the first
call), and writes an index file with the identical sessions mapping and
total count; only the top-level last_saved timestamp differs between the two
aggregate writes. -/
theorem C5_flush_idempotent_amended (st : StorageState) (now1 now2 : Nat)
    (hnd : (st.chat_sessions.map Prod.fst).Nodup) :
    (∀ sid, StoreEvent.entityWrite sid ∉
      (save_sessions now2 (save_sessions now1 st).1).2) ∧
    ((save_sessions now2 (save_sessions now1 st).1).1.indexFile.map
        IndexFileData.sessions
      = (save_sessions now1 st).1.indexFile.map IndexFileData.sessions) ∧
    ((save_sessions now2 (save_sessions now1 st).1).1.indexFile.map
        IndexFileData.total_sessions
      = (save_sessions now1 st).1.indexFile.map IndexFileData.total_sessions) ∧
    (∀ q ∈ (save_sessions now1 st).1.chat_sessions,
      q.2.modified = some false) := by
  have hclean := save_sessions_all_clean now1 st hnd
  have hfold : (save_sessions now1 st).1.chat_sessions.foldl (flushStep now2)
      ((save_sessions now1 st).1, []) = ((save_sessions now1 st).1, []) :=
    foldl_flushStep_clean now2 _ _ hclean
  refine ⟨?_, ?_, ?_, hclean⟩
  · intro sid
    show StoreEvent.entityWrite sid ∉
      ((save_sessions now1 st).1.chat_sessions.foldl (flushStep now2)
        ((save_sessions now1 st).1, [])).2 ++ [StoreEvent.indexWrite]
    rw [hfold]
    simp
  · show (save_session_index now2
        ((save_sessions now1 st).1.chat_sessions.foldl (flushStep now2)
          ((save_sessions now1 st).1, [])).1).indexFile.map
        IndexFileData.sessions = _
    rw [hfold]
    rfl
  · show (save_session_index now2
        ((save_sessions now1 st).1.chat_sessions.foldl (flushStep now2)
          ((save_sessions now1 st).1, [])).1).indexFile.map
        IndexFileData.total_sessions = _
    rw [hfold]
    rfl

theorem C5_witness :
    (∀ sid, StoreEvent.entityWrite sid ∉
      (save_sessions 1 (save_sessions 0 stOne).1).2) ∧
    ((save_sessions 1 (save_sessions 0 stOne).1).1.indexFile.map
        IndexFileData.sessions
      = (save_sessions 0 stOne).1.indexFile.map IndexFileData.sessions) ∧
    ((save_sessions 1 (save_sessions 0 stOne).1).1.indexFile.map
        IndexFileData.total_sessions
      = (save_sessions 0 stOne).1.indexFile.map IndexFileData.total_sessions) ∧
    (∀ q ∈ (save_sessions 0 stOne).1.chat_sessions,
      q.2.modified = some false) :=
  C5_flush_idempotent_amended stOne 0 1 (by decide)

/-- C5 counterexample: the aggregate index files written by two consecutive
save_sessions calls are NOT identical — each write stamps its own
last_saved timestamp — even on the concrete state stOne with no mutation in
between. -/
theorem C5_index_content_counterexample :
    (save_sessions 1 (save_sessions 0 stOne).1).1.indexFile
      ≠ (save_sessions 0 stOne).1.indexFile := by
  decide

/-- C7 (confirmed): get_session_lazy serves a cached id from memory with no
disk read; on a cache miss with an indexed id it reads the session file, and
on success caches and returns the record, so a second get is served from the
cache without a disk read; when it returns absent the cache is unchanged. -/
theorem C7_lazy_load (st : StorageState) (sid : String) :
    (∀ s, lookupA sid st.chat_sessions = some s →
      get_session_lazy sid st = (some s, st, [])) ∧
    (lookupA sid st.chat_sessions = none →
      (lookupA sid st.session_index).isSome →
      ∀ d, load_individual_session sid st = some d →
        get_session_lazy sid st =
          (some d, { st with chat_sessions := insertA sid d st.chat_sessions },
           [StoreEvent.diskRead sid]) ∧
        get_session_lazy sid (get_session_lazy sid st).2.1 =
          (some d, (get_session_lazy sid st).2.1, [])) ∧
    ((get_session_lazy sid st).1 = none → (get_session_lazy sid st).2.1 = st) := by
  refine ⟨?_, ?_, ?_⟩
  · intro s hs
    simp [get_session_lazy, hs]
  · intro hmiss hidx d hload
    have hfirst : get_session_lazy sid st =
        (some d, { st with chat_sessions := insertA sid d st.chat_sessions },
         [StoreEvent.diskRead sid]) := by
      simp [get_session_lazy, hmiss, hidx, hload]
    refine ⟨hfirst, ?_⟩
    rw [hfirst]
    simp [get_session_lazy, lookupA_insertA_self]
  · intro hnone
    cases hcache : lookupA sid st.chat_sessions with
    | some s => simp [get_session_lazy, hcache] at hnone
    | none =>
      by_cases hidx : (lookupA sid st.session_index).isSome
      · cases hload : load_individual_session sid st with
        | some d => simp [get_session_lazy, hcache, hidx, hload] at hnone
        | none => simp [get_session_lazy, hcache, hidx, hload]
      · simp [get_session_lazy, hcache, hidx]

/-- Concrete state with an indexed session that is not cached. -/
def stLazy : StorageState :=
  { chat_sessions := [],
    session_index := [("s1",
      { caption := "Hello", created_at := 1, last_accessed := 2,
        message_count := 1, last_saved := 3 })],
    sessionFiles := [("s1", chatRec0)], indexFile := none }

theorem C7_witness :
    get_session_lazy "s1" stLazy =
      (some chatRec0,
       { stLazy with chat_sessions := insertA "s1" chatRec0 stLazy.chat_sessions },
       [StoreEvent.diskRead "s1"]) ∧
    get_session_lazy "s1" (get_session_lazy "s1" stLazy).2.1 =
      (some chatRec0, (get_session_lazy "s1" stLazy).2.1, []) :=
  (C7_lazy_load stLazy "s1").2.1 (by decide) (by decide) chatRec0 (by decide)

/- ----------------------------------------------------------------------
Text chunking (rag.chunk_text, rag.py lines 122-143).
---------------------------------------------------------------------- -/

/-- Whitespace test used by Python str.strip() (the ASCII whitespace
characters). -/
def isPySpace (c : Char) : Bool :=
  c = ' ' || c = '\t' || c = '\n' || c = '\r' || c = '\x0b' || c = '\x0c'

/-- Python str.strip(): drop whitespace from both ends. -/
def pyStrip (l : List Char) : List Char :=
  ((l.dropWhile isPySpace).reverse.dropWhile isPySpace).reverse

/-- The while-loop of rag.chunk_text, with explicit fuel; `none` models
non-termination (fuel exhausted).  Per iteration the window
text[start:start+chunk_size] is stripped and appended when non-empty
(`chunks.append(chunk.strip())`), then start becomes `end - overlap`
(`start + size - overlap`; kept in Nat — the subtraction cannot go negative
at any actual call site, where overlap < chunk_size ≤ chunk_size + start). -/
def chunkLoop (size overlap : Nat) (text : List Char) :
    Nat → Nat → Option (List (List Char))
  | 0, _ => none
  | fuel + 1, start =>
    if start < text.length then
      (chunkLoop size overlap text fuel (start + size - overlap)).map
        (fun rest =>
          if pyStrip ((text.drop start).take size) = [] then rest
          else pyStrip ((text.drop start).take size) :: rest)
    else some []

theorem chunkLoop_succ (size overlap : Nat) (text : List Char)
    (fuel start : Nat) :
    chunkLoop size overlap text (fuel + 1) start =
      if start < text.length then
        (chunkLoop size overlap text fuel (start + size - overlap)).map
          (fun rest =>
            if pyStrip ((text.drop start).take size) = [] then rest
            else pyStrip ((text.drop start).take size) :: rest)
      else some [] := rfl

/-- rag.chunk_text: strip the whole text, return no chunks when empty,
otherwise run the chunking scan (fuel length+1 always suffices when
overlap < chunk_size, by chunkLoop_isSome). -/
def chunk_text (text : List Char) (size overlap : Nat) :
    Option (List (List Char)) :=
  if pyStrip text = [] then some []
  else chunkLoop size overlap (pyStrip text) ((pyStrip text).length + 1) 0

/-- With overlap < size the window start strictly increases, so the loop
completes within any fuel exceeding the remaining length. -/
theorem chunkLoop_isSome (size overlap : Nat) (text : List Char)
    (hov : overlap < size) :
    ∀ (fuel start : Nat), text.length - start < fuel →
      (chunkLoop size overlap text fuel start).isSome
  | 0, _, h => absurd h (by omega)
  | fuel + 1, start, h => by
    rw [chunkLoop_succ]
    by_cases hs : start < text.length
    · rw [if_pos hs]
      have hfuel : text.length - (start + size - overlap) < fuel := by omega
      have hrec := chunkLoop_isSome size overlap text hov fuel
        (start + size - overlap) hfuel
      cases hrc : chunkLoop size overlap text fuel (start + size - overlap) with
      | none => rw [hrc] at hrec; simp at hrec
      | some rest => simp [hrc]
    · rw [if_neg hs]
      simp

/-- C9 (confirmed): under the precondition overlap < chunk_size, the
chunking scan of chunk_text terminates — the fuelled loop never exhausts
its fuel, so chunk_text is total (never the non-termination value none). -/
theorem C9_chunk_termination (text : List Char) (size overlap : Nat)
    (hov : overlap < size) :
    (chunk_text text size overlap).isSome := by
  rw [chunk_text]
  by_cases ht : pyStrip text = []
  · simp [ht]
  · simp only [ht, if_false]
    exact chunkLoop_isSome size overlap (pyStrip text) hov _ 0 (by omega)

theorem C9_witness :
    (0 : Nat) < 2 ∧ (1 : Nat) < 2 ∧
    (chunk_text ['a', 'b', 'c'] 2 1).isSome :=
  ⟨by decide, by decide, C9_chunk_termination ['a', 'b', 'c'] 2 1 (by decide)⟩

theorem pyStrip_replicate_space (n : Nat) :
    pyStrip (List.replicate n ' ') = [] := by
  have h : List.dropWhile isPySpace (List.replicate n ' ') = [] := by
    induction n with
    | zero => rfl
    | succ m ih =>
      rw [List.replicate_succ, List.dropWhile_cons]
      rw [show isPySpace ' ' = true from rfl]
      simpa using ih
  simp [pyStrip, h]

/-- C8 counterexample: a 1200-character text consisting only of spaces
produces zero chunks, not the claimed three — chunk_text first strips the
whole text (here to emptiness) and drops all-whitespace windows. -/
theorem C8_chunk_1200_counterexample :
    (List.replicate 1200 ' ').length = 1200 ∧
    chunk_text (List.replicate 1200 ' ') 500 50 = some [] ∧
    (chunk_text (List.replicate 1200 ' ') 500 50).map List.length ≠ some 3 := by
  have h : chunk_text (List.replicate 1200 ' ') 500 50 = some [] := by
    rw [chunk_text, pyStrip_replicate_space]
    simp
  refine ⟨List.length_replicate 1200 ' ', h, ?_⟩
  rw [h]
  simp

/-- C8 (amended): for a 1200-character text that is already stripped and
whose three windows do not strip to emptiness, chunk_text with size 500 and
overlap 50 returns exactly the three stripped slices [0:500], [450:950] and
[900:1200]; and chunk_text on the empty text returns no chunks for every
size and overlap. -/
theorem C8_chunk_1200_amended (text : List Char)
    (hlen : text.length = 1200)
    (hstrip : pyStrip text = text)
    (h0 : pyStrip (text.take 500) ≠ [])
    (h1 : pyStrip ((text.drop 450).take 500) ≠ [])
    (h2 : pyStrip (text.drop 900) ≠ [])
    (size overlap : Nat) :
    chunk_text text 500 50 =
      some [pyStrip (text.take 500), pyStrip ((text.drop 450).take 500),
            pyStrip (text.drop 900)] ∧
    chunk_text [] size overlap = some [] := by
  constructor
  · have htext_ne : text ≠ [] := by
      intro h
      rw [h] at hlen
      simp at hlen
    have s3 : chunkLoop 500 50 text 1198 1350 = some [] := by
      show chunkLoop 500 50 text (1197 + 1) 1350 = some []
      rw [chunkLoop_succ, if_neg (by omega)]
    have htake : (text.drop 900).take 500 = text.drop 900 := by
      apply List.take_of_length_le
      rw [List.length_drop, hlen]
      omega
    have s2 : chunkLoop 500 50 text 1199 900 = some [pyStrip (text.drop 900)] := by
      show chunkLoop 500 50 text (1198 + 1) 900 = _
      rw [chunkLoop_succ, if_pos (by omega)]
      norm_num
      rw [s3, htake]
      simp [h2]
    have s1 : chunkLoop 500 50 text 1200 450 =
        some [pyStrip ((text.drop 450).take 500), pyStrip (text.drop 900)] := by
      show chunkLoop 500 50 text (1199 + 1) 450 = _
      rw [chunkLoop_succ, if_pos (by omega)]
      norm_num
      rw [s2]
      simp [h1]
    have s0 : chunkLoop 500 50 text 1201 0 =
        some [pyStrip (text.take 500), pyStrip ((text.drop 450).take 500),
              pyStrip (text.drop 900)] := by
      show chunkLoop 500 50 text (1200 + 1) 0 = _
      rw [chunkLoop_succ, if_pos (by omega)]
      norm_num
      rw [s1]
      simp [h0]
    rw [chunk_text]
    simp only [hstrip, htext_ne, if_false, hlen]
    exact s0
  · rfl

theorem pyStrip_replicate_a (n : Nat) :
    pyStrip (List.replicate n 'a') = List.replicate n 'a' := by
  have h : ∀ m : Nat, List.dropWhile isPySpace (List.replicate m 'a')
      = List.replicate m 'a' := by
    intro m
    cases m with
    | zero => rfl
    | succ p =>
      rw [List.replicate_succ, List.dropWhile_cons]
      rw [show isPySpace 'a' = false from rfl]
      simp
  rw [pyStrip, h, List.reverse_replicate, h, List.reverse_replicate]

theorem pyStrip_replicate_a_ne_nil {n : Nat} (hn : 0 < n) :
    pyStrip (List.replicate n 'a') ≠ [] := by
  rw [pyStrip_replicate_a]
  intro h
  have := congrArg List.length h
  rw [List.length_replicate] at this
  simp at this
  omega

theorem C8_witness :
    chunk_text (List.replicate 1200 'a') 500 50 =
      some [pyStrip ((List.replicate 1200 'a').take 500),
            pyStrip (((List.replicate 1200 'a').drop 450).take 500),
            pyStrip ((List.replicate 1200 'a').drop 900)] ∧
    chunk_text [] 500 50 = some [] :=
  C8_chunk_1200_amended (List.replicate 1200 'a')
    (List.length_replicate ..)
    (pyStrip_replicate_a 1200)
    (by rw [List.take_replicate]
        exact pyStrip_replicate_a_ne_nil (by norm_num))
    (by rw [List.drop_replicate, List.take_replicate]
        exact pyStrip_replicate_a_ne_nil (by norm_num))
    (by rw [List.drop_replicate]
        exact pyStrip_replicate_a_ne_nil (by norm_num))
    500 50

/- ----------------------------------------------------------------------
Vector index model (faiss flat indexes with parallel metadata), the RAG
session/vector services (app/services/rag.py) and the code-notes global
index (app/core/code_notes.py, app/services/code_notes.py).  Embedding
vectors are modelled as integer lists and the embedding model as an
explicit function parameter; faiss nearest-neighbour ranking is modelled
as a stable argsort by a distance key (squared L2 for IndexFlatL2,
negated inner product for IndexFlatIP) — the claims below depend only on
which positions can be returned and how many, not on the metric's exact
float value.
---------------------------------------------------------------------- -/

/-- Squared L2 distance (ranking key of faiss.IndexFlatL2). -/
def sqDist (u v : List Int) : Int :=
  ((u.zip v).map (fun p => (p.1 - p.2) * (p.1 - p.2))).sum

/-- Inner product (ranking key of faiss.IndexFlatIP; larger is closer). -/
def innerProd (u v : List Int) : Int :=
  ((u.zip v).map (fun p => p.1 * p.2)).sum

/-- Insert a (position, key) pair into a ranked list: before the first entry
with a strictly larger key (ties broken by smaller position). -/
def insertRanked (a : Nat × Int) : List (Nat × Int) → List (Nat × Int)
  | [] => [a]
  | b :: rest =>
    if a.2 < b.2 || (a.2 == b.2 && a.1 ≤ b.1) then a :: b :: rest
    else b :: insertRanked a rest

/-- Stable argsort of (position, key) pairs by (key, position). -/
def rankSort : List (Nat × Int) → List (Nat × Int)
  | [] => []
  | a :: rest => insertRanked a (rankSort rest)

theorem insertRanked_perm (a : Nat × Int) :
    ∀ l : List (Nat × Int), (insertRanked a l).Perm (a :: l)
  | [] => List.Perm.refl _
  | b :: rest => by
    rw [insertRanked]
    split
    · exact List.Perm.refl _
    · exact ((insertRanked_perm a rest).cons b).trans (List.Perm.swap a b rest)

theorem rankSort_perm : ∀ l : List (Nat × Int), (rankSort l).Perm l
  | [] => List.Perm.refl _
  | a :: rest =>
    (insertRanked_perm a (rankSort rest)).trans ((rankSort_perm rest).cons a)

/-- faiss flat-index search result positions: rank all stored vectors by the
distance key, take the first min(k, ntotal) positions, and pad with -1 up to
k columns exactly as faiss pads missing neighbours. -/
def faissTopIdxs (dist : List Int → Int) (vecs : List (List Int)) (k : Nat) :
    List Int :=
  ((rankSort ((vecs.map dist).enum)).map (fun p => (p.1 : Int))).take k
    ++ List.replicate (k - vecs.length) (-1)

theorem length_faissTopIdxs (dist : List Int → Int) (vecs : List (List Int))
    (k : Nat) : (faissTopIdxs dist vecs k).length = k := by
  rw [faissTopIdxs, List.length_append, List.length_take, List.length_map,
    (rankSort_perm _).length_eq, List.enum_length, List.length_map,
    List.length_replicate]
  omega

/-- Every non-padding position returned by the search is a valid index into
the stored vectors. -/
theorem mem_faissTopIdxs (dist : List Int → Int) (vecs : List (List Int))
    (k : Nat) {idx : Int} (h : idx ∈ faissTopIdxs dist vecs k) :
    idx = -1 ∨ (0 ≤ idx ∧ idx < (vecs.length : Int)) := by
  rw [faissTopIdxs] at h
  rcases List.mem_append.1 h with h1 | h2
  · right
    have h3 := List.mem_of_mem_take h1
    rcases List.mem_map.1 h3 with ⟨p, hp, hpe⟩
    have hp2 : p ∈ (vecs.map dist).enum := (rankSort_perm _).mem_iff.1 hp
    have hp3 : p.1 ∈ ((vecs.map dist).enum.map Prod.fst) :=
      List.mem_map_of_mem Prod.fst hp2
    rw [List.enum_map_fst, List.mem_range, List.length_map] at hp3
    subst hpe
    constructor
    · exact Int.ofNat_nonneg p.1
    · exact_mod_cast hp3
  · left
    exact (List.eq_of_mem_replicate h2).symm ▸ rfl

/-- Python list indexing `l[i]`, including negative-index semantics
(`l[-1]` is the last element). -/
def pyGet {α : Type} (l : List α) (i : Int) : Option α :=
  if 0 ≤ i then l.get? i.toNat
  else if 0 ≤ (l.length : Int) + i then l.get? ((l.length : Int) + i).toNat
  else none

theorem pyGet_mem {α : Type} {l : List α} {i : Int} {a : α}
    (h : pyGet l i = some a) : a ∈ l := by
  rw [pyGet] at h
  split at h
  · exact List.get?_mem h
  · split at h
    · exact List.get?_mem h
    · exact absurd h (by simp)

/-- A RAG vector-store metadata record, as built by
rag.upload_documents_service (lines 371-377): document id, document name,
chunk position and chunk text — no embedding is stored in metadata. -/
structure MetaRecord where
  document_id : String
  document_name : String
  chunk_index : Nat
  content : String
deriving DecidableEq, Repr

/-- A per-session vector store: the FAISS index contents and the parallel
metadata list, persisted together by rag.save_vector_store. -/
structure VectorStore where
  vectors : List (List Int)
  metadata : List MetaRecord
deriving DecidableEq, Repr

/-- One RAG chat message (rag.chat_service lines 503-545). -/
structure RagMessage where
  role : String
  content : String
  timestamp : Nat
  related_chunks : Option (List String)
deriving DecidableEq, Repr

/-- One RAG chat history (rag.chat_service lines 475-481). -/
structure RagHistory where
  history_id : String
  caption : String
  created_at : Nat
  updated_at : Nat
  messages : List RagMessage
deriving DecidableEq, Repr

/-- Per-document info held in a RAG session's `documents` dict
(rag.upload_documents_service lines 381-388). -/
structure DocInfo where
  document_id : String
  document_name : String
  document_size : Nat
  text_size : Nat
  chunk_count : Nat
  uploaded_at : Nat
deriving DecidableEq, Repr

/-- A RAG session record (rag.create_session_service lines 225-233). -/
structure RagSession where
  session_id : String
  name : String
  description : String
  created_at : Nat
  updated_at : Nat
  histories : List (String × RagHistory)
  documents : List (String × DocInfo)
deriving DecidableEq, Repr

/-- Durable RAG state: session JSON files and vector-store artifact pairs
keyed by session id, plus the document files, whose on-disk names
`f"{session_id}_{document_id}_{filename}"` are modelled structurally as the
key triple (session id, document id, filename). -/
structure RagState where
  sessionFiles : List (String × RagSession)
  vectorFiles : List (String × VectorStore)
  documentFiles : List (String × String × String)
deriving DecidableEq, Repr

/-- rag.load_session_data (lines 186-192). -/
def rag_load_session_data (sid : String) (st : RagState) : Option RagSession :=
  lookupA sid st.sessionFiles

/-- rag.save_session_data (lines 194-199): stamps updated_at with the
current time and rewrites the session file. -/
def rag_save_session_data (now : Nat) (sid : String) (data : RagSession)
    (st : RagState) : RagState :=
  { st with sessionFiles :=
      insertA sid { data with updated_at := now } st.sessionFiles }

/-- rag.load_vector_store (lines 201-211): both artifacts or none. -/
def rag_load_vector_store (sid : String) (st : RagState) : Option VectorStore :=
  lookupA sid st.vectorFiles

/-- rag.save_vector_store (lines 213-220). -/
def rag_save_vector_store (sid : String) (vs : VectorStore) (st : RagState) :
    RagState :=
  { st with vectorFiles := insertA sid vs st.vectorFiles }

/-- The related-chunk lookup inside rag.chat_service (lines 492-500): search
the index with k = DEFAULT_K_SIMILAR = 3 and keep metadata[idx]['content']
for every returned idx passing the `if idx < len(metadata)` guard — Python
semantics let the -1 padding of an under-filled index pass this guard and
fetch the LAST metadata record. -/
def chatRelatedChunks (vs : VectorStore) (qvec : List Int) : List String :=
  (faissTopIdxs (sqDist qvec) vs.vectors 3).filterMap
    (fun idx =>
      if idx < (vs.metadata.length : Int) then
        (pyGet vs.metadata idx).map MetaRecord.content
      else none)

/-- Every chunk returned by the related-chunk lookup is the content of some
stored metadata record. -/
theorem chatRelatedChunks_subset (vs : VectorStore) (qvec : List Int)
    {c : String} (hc : c ∈ chatRelatedChunks vs qvec) :
    ∃ m ∈ vs.metadata, m.content = c := by
  rw [chatRelatedChunks] at hc
  rcases List.mem_filterMap.1 hc with ⟨idx, _, hidx⟩
  split at hidx
  · cases hget : pyGet vs.metadata idx with
    | none => rw [hget] at hidx; exact absurd hidx (by simp)
    | some m =>
      rw [hget] at hidx
      exact ⟨m, pyGet_mem hget, by simpa using hidx⟩
  · exact absurd hidx (by simp)

/-- The on-disk deletion glob `f"{session_id}_{document_id}_*"` keeps every
document file belonging to another session or another document. -/
def keepDocFile (sid docId : String) (f : String × String × String) : Bool :=
  decide (¬ (f.1 = sid ∧ f.2.1 = docId))

/-- Unlinking every file matched by `f"{session_id}_{document_id}_*"`. -/
def removeDocFiles (sid docId : String) (st : RagState) : RagState :=
  { st with documentFiles := st.documentFiles.filter (keepDocFile sid docId) }

/-- rag.delete_document_service (lines 610-664): returns the API result (ok
message or error), the new durable state, and the list of chunk texts passed
to embedding_model.encode during the rebuild (the re-embedding calls).  The
source's ok message quotes the document name; the quote characters are
omitted here. -/
def delete_document_service (embed : String → List Int) (now : Nat)
    (sid docId : String) (st : RagState) :
    Except String String × RagState × List String :=
  match rag_load_session_data sid st with
  | none => (Except.error "Session not found", st, [])
  | some sd =>
    if (lookupA docId sd.documents).isSome then
      let sd1 := { sd with documents := eraseA docId sd.documents }
      let st1 := removeDocFiles sid docId st
      match rag_load_vector_store sid st1 with
      | none =>
        (Except.ok "deleted", rag_save_session_data now sid sd1 st1, [])
      | some vs =>
        let newMeta := vs.metadata.filter
          (fun m => decide (m.document_id ≠ docId))
        if newMeta.isEmpty then
          let st2 := { st1 with vectorFiles := eraseA sid st1.vectorFiles }
          (Except.ok "deleted", rag_save_session_data now sid sd1 st2, [])
        else
          let remaining := newMeta.map MetaRecord.content
          let st2 := rag_save_vector_store sid
            { vectors := remaining.map embed, metadata := newMeta } st1
          (Except.ok "deleted", rag_save_session_data now sid sd1 st2,
           remaining)
    else (Except.error "Document not found", st, [])

/-- rag.delete_session_service (lines 560-587): removes the session file,
both vector artifacts, and every document file of the session. -/
def rag_delete_session_service (sid : String) (st : RagState) :
    Except String String × RagState :=
  match rag_load_session_data sid st with
  | none => (Except.error "Session not found", st)
  | some _ =>
    (Except.ok "Session deleted successfully",
     { st with
       sessionFiles := eraseA sid st.sessionFiles,
       vectorFiles := eraseA sid st.vectorFiles,
       documentFiles := st.documentFiles.filter (fun f => decide (f.1 ≠ sid)) })

/-- rag.delete_history_service (lines 589-608): checks the session and the
history, removes exactly that history, and saves the session. -/
def delete_history_service (now : Nat) (sid hid : String) (st : RagState) :
    Except String String × RagState :=
  match rag_load_session_data sid st with
  | none => (Except.error "Session not found", st)
  | some sd =>
    if (lookupA hid sd.histories).isSome then
      (Except.ok "History deleted successfully",
       rag_save_session_data now sid
         { sd with histories := eraseA hid sd.histories } st)
    else (Except.error "History not found", st)

/-- The in-process code-notes state (app/core/code_notes.py globals):
sessions_data (session id mapped to the session record, modelled opaquely as
its serialized text), the global FAISS index contents, the position-to-owner
map session_ids_map, and the per-session on-disk folders. -/
structure CodeNotesState where
  sessions_data : List (String × String)
  faiss_vectors : List (List Int)
  session_ids_map : List (Nat × String)
  session_folders : List String
deriving DecidableEq, Repr

/-- code_notes.add_to_faiss_index (core lines 42-54): append the embedding
at position ntotal and record the owning session at that key. -/
def add_to_faiss_index (embed : String → List Int) (sid : String)
    (code : String) (st : CodeNotesState) : CodeNotesState :=
  { st with
    faiss_vectors := st.faiss_vectors ++ [embed code],
    session_ids_map :=
      insertA st.faiss_vectors.length sid st.session_ids_map }

/-- code_notes.search_similar_code (core lines 55-72): an empty index
returns []; otherwise search for min(k, ntotal) neighbours and keep the
mapped session id of every returned position that is a key of
session_ids_map (`if idx in session_ids_map`). -/
def search_similar_code (embed : String → List Int) (st : CodeNotesState)
    (query : String) (k : Nat) : List String :=
  if st.faiss_vectors.length = 0 then []
  else
    (faissTopIdxs (fun v => - innerProd (embed query) v) st.faiss_vectors
        (min k st.faiss_vectors.length)).filterMap
      (fun idx =>
        if 0 ≤ idx then lookupA idx.toNat st.session_ids_map else none)

/-- Every id returned by search_similar_code is a value of session_ids_map. -/
theorem search_similar_code_mem (embed : String → List Int)
    (st : CodeNotesState) (q : String) (k : Nat) {s : String}
    (h : s ∈ search_similar_code embed st q k) :
    ∃ p ∈ st.session_ids_map, p.2 = s := by
  rw [search_similar_code] at h
  split at h
  · exact absurd h (by simp)
  · rcases List.mem_filterMap.1 h with ⟨idx, _, hidx⟩
    split at hidx
    · exact ⟨(idx.toNat, s), lookupA_mem hidx, rfl⟩
    · exact absurd hidx (by simp)

/-- code_notes services delete_session_service (services lines 689-709):
drop the in-memory session, filter its positions out of session_ids_map,
remove the session folder and re-save — the FAISS index contents themselves
are left untouched. -/
def cn_delete_session_service (sid : String) (st : CodeNotesState) :
    Except String String × CodeNotesState :=
  if (lookupA sid st.sessions_data).isSome then
    (Except.ok ("Session " ++ sid ++ " deleted successfully"),
     { st with
       sessions_data := eraseA sid st.sessions_data,
       session_ids_map :=
         st.session_ids_map.filter (fun p => decide (p.2 ≠ sid)),
       session_folders :=
         st.session_folders.filter (fun f => decide (f ≠ sid)) })
  else (Except.error "Session not found", st)

/- Concrete fixtures. -/

/-- Vector store holding a single chunk of a single document. -/
def vsOne : VectorStore :=
  { vectors := [[0, 0]],
    metadata := [{ document_id := "A", document_name := "a.txt",
                   chunk_index := 0, content := "only chunk" }] }

/-- C3: the length-min(k, n) contract fails on the RAG related-chunk path.
On a one-record store, index.search with k = 3 returns the position 0 plus
two -1 padding entries; `idx < len(metadata)` is True for -1 in Python and
metadata[-1] is the last record, so three copies of the sole chunk are
returned instead of min(3, 1) = 1 pair. -/
theorem C3_related_chunks_padding_bug :
    chatRelatedChunks vsOne [0, 0]
      = ["only chunk", "only chunk", "only chunk"] ∧
    (chatRelatedChunks vsOne [0, 0]).length ≠ min 3 vsOne.vectors.length := by
  constructor
  · decide
  · decide

/-- C2 (amended): deleting document A rebuilds the vector store with exactly
the surviving metadata records in their original relative order; when every
record belongs to A or B (with A and B distinct) the rebuilt size equals B's
chunk count exactly; vectors and metadata stay index-aligned; every chunk a
subsequent related-chunk search can return is the content of one of B's
records; and the rebuild obtains B's embeddings by re-encoding the surviving
chunks' text (exactly the surviving contents are passed to the embedding
model — no embedding is retained in metadata). -/
theorem C2_delete_document_rebuild_amended
    (embed : String → List Int) (now : Nat) (A B sid : String)
    (st : RagState) (sd : RagSession) (vs : VectorStore)
    (hsd : rag_load_session_data sid st = some sd)
    (hdoc : (lookupA A sd.documents).isSome)
    (hvs : rag_load_vector_store sid st = some vs)
    (hAB : ∀ m ∈ vs.metadata, m.document_id = A ∨ m.document_id = B)
    (hABne : A ≠ B)
    (hne : ¬ (vs.metadata.filter
      (fun m => decide (m.document_id ≠ A))).isEmpty) :
    (∃ msg, (delete_document_service embed now sid A st).1 = Except.ok msg) ∧
    rag_load_vector_store sid (delete_document_service embed now sid A st).2.1
      = some { vectors :=
                 ((vs.metadata.filter (fun m => decide (m.document_id ≠ A))).map
                   MetaRecord.content).map embed,
               metadata :=
                 vs.metadata.filter (fun m => decide (m.document_id ≠ A)) } ∧
    (vs.metadata.filter (fun m => decide (m.document_id ≠ A))).length
      = (vs.metadata.filter (fun m => decide (m.document_id = B))).length ∧
    (((vs.metadata.filter (fun m => decide (m.document_id ≠ A))).map
        MetaRecord.content).map embed).length
      = (vs.metadata.filter (fun m => decide (m.document_id ≠ A))).length ∧
    (∀ m ∈ vs.metadata.filter (fun m => decide (m.document_id ≠ A)),
      m.document_id = B) ∧
    (∀ qvec c, c ∈ chatRelatedChunks
        { vectors :=
            ((vs.metadata.filter (fun m => decide (m.document_id ≠ A))).map
              MetaRecord.content).map embed,
          metadata :=
            vs.metadata.filter (fun m => decide (m.document_id ≠ A)) } qvec →
      ∃ m ∈ vs.metadata, m.document_id = B ∧ m.content = c) ∧
    (delete_document_service embed now sid A st).2.2
      = (vs.metadata.filter (fun m => decide (m.document_id ≠ A))).map
          MetaRecord.content := by
  have hvs1 : rag_load_vector_store sid (removeDocFiles sid A st)
      = some vs := hvs
  have hrun : delete_document_service embed now sid A st =
      (Except.ok "deleted",
       rag_save_session_data now sid
         { sd with documents := eraseA A sd.documents }
         (rag_save_vector_store sid
           { vectors :=
               ((vs.metadata.filter (fun m => decide (m.document_id ≠ A))).map
                 MetaRecord.content).map embed,
             metadata :=
               vs.metadata.filter (fun m => decide (m.document_id ≠ A)) }
           (removeDocFiles sid A st)),
       (vs.metadata.filter (fun m => decide (m.document_id ≠ A))).map
         MetaRecord.content) := by
    rw [delete_document_service, hsd]
    simp only [hdoc, if_true, hvs1, hne, if_false]
    simp
  have hfilter_mem : ∀ m ∈ vs.metadata.filter
      (fun m => decide (m.document_id ≠ A)), m.document_id = B := by
    intro m hm
    have h1 := List.mem_filter.1 hm
    have h2 : m.document_id ≠ A := of_decide_eq_true h1.2
    rcases hAB m h1.1 with h | h
    · exact absurd h h2
    · exact h
  refine ⟨⟨"deleted", by rw [hrun]⟩, ?_, ?_, by simp, hfilter_mem, ?_, ?_⟩
  · rw [hrun]
    show lookupA sid (insertA sid _ _) = _
    rw [lookupA_insertA_self]
  · have : vs.metadata.filter (fun m => decide (m.document_id ≠ A))
        = vs.metadata.filter (fun m => decide (m.document_id = B)) := by
      apply List.filter_congr
      intro m hm
      rcases hAB m hm with h | h
      · simp [h, hABne]
      · simp [h, Ne.symm hABne]
    rw [this]
  · intro qvec c hc
    rcases chatRelatedChunks_subset _ qvec hc with ⟨m, hm, hcontent⟩
    exact ⟨m, (List.mem_filter.1 hm).1, hfilter_mem m hm, hcontent⟩
  · rw [hrun]

/-- A chunk record of document A. -/
def metaA : MetaRecord :=
  { document_id := "A", document_name := "a.txt",
    chunk_index := 0, content := "chunk A" }

/-- A chunk record of document B. -/
def metaB : MetaRecord :=
  { document_id := "B", document_name := "b.txt",
    chunk_index := 0, content := "chunk B" }

/-- Session document info for the fixtures. -/
def docInfoFor (id name : String) : DocInfo :=
  { document_id := id, document_name := name, document_size := 7,
    text_size := 7, chunk_count := 1, uploaded_at := 0 }

/-- A RAG session holding documents A and B. -/
def sdAB : RagSession :=
  { session_id := "s", name := "n", description := "d", created_at := 0,
    updated_at := 0, histories := [],
    documents := [("A", docInfoFor "A" "a.txt"), ("B", docInfoFor "B" "b.txt")] }

/-- The vector store of sdAB: one chunk per document. -/
def vsAB : VectorStore := { vectors := [[1], [2]], metadata := [metaA, metaB] }

/-- A concrete embedding model for evaluation. -/
def embed0 : String → List Int := fun s => [(s.length : Int)]

/-- The durable RAG state holding session s with documents A and B. -/
def stAB : RagState :=
  { sessionFiles := [("s", sdAB)], vectorFiles := [("s", vsAB)],
    documentFiles := [("s", "A", "a.txt"), ("s", "B", "b.txt")] }

theorem C2_witness :
    (∃ msg, (delete_document_service embed0 9 "s" "A" stAB).1
      = Except.ok msg) ∧
    rag_load_vector_store "s" (delete_document_service embed0 9 "s" "A" stAB).2.1
      = some { vectors :=
                 ((vsAB.metadata.filter (fun m => decide (m.document_id ≠ "A"))).map
                   MetaRecord.content).map embed0,
               metadata :=
                 vsAB.metadata.filter (fun m => decide (m.document_id ≠ "A")) } ∧
    (vsAB.metadata.filter (fun m => decide (m.document_id ≠ "A"))).length
      = (vsAB.metadata.filter (fun m => decide (m.document_id = "B"))).length ∧
    (((vsAB.metadata.filter (fun m => decide (m.document_id ≠ "A"))).map
        MetaRecord.content).map embed0).length
      = (vsAB.metadata.filter (fun m => decide (m.document_id ≠ "A"))).length ∧
    (∀ m ∈ vsAB.metadata.filter (fun m => decide (m.document_id ≠ "A")),
      m.document_id = "B") ∧
    (∀ qvec c, c ∈ chatRelatedChunks
        { vectors :=
            ((vsAB.metadata.filter (fun m => decide (m.document_id ≠ "A"))).map
              MetaRecord.content).map embed0,
          metadata :=
            vsAB.metadata.filter (fun m => decide (m.document_id ≠ "A")) } qvec →
      ∃ m ∈ vsAB.metadata, m.document_id = "B" ∧ m.content = c) ∧
    (delete_document_service embed0 9 "s" "A" stAB).2.2
      = (vsAB.metadata.filter (fun m => decide (m.document_id ≠ "A"))).map
          MetaRecord.content :=
  C2_delete_document_rebuild_amended embed0 9 "A" "B" "s" stAB sdAB vsAB
    (by decide) (by decide) (by decide) (by decide) (by decide) (by decide)

/-- C2 counterexample: deleting document A from the concrete two-document
store passes the surviving chunk's text to embedding_model.encode — the
rebuild re-embeds B's text (metadata holds no stored embedding), contrary to
the claim that stored embeddings are re-added without re-embedding. -/
theorem C2_reembeds_counterexample :
    (delete_document_service embed0 9 "s" "A" stAB).2.2 = ["chunk B"] ∧
    (delete_document_service embed0 9 "s" "A" stAB).2.2 ≠ [] := by
  constructor
  · decide
  · decide

/-- C6 (amended): explicit delete removes the entity everywhere in the chat
and RAG subsystems; in the code-notes subsystem it removes the cached
session, the session folder and every position-to-owner map entry — so a
search can never return the deleted session — but the session's embedding
vectors remain inside the global FAISS index (only the map is filtered; the
index supports no deletion and is not rebuilt). -/
theorem C6_delete_everywhere_amended
    (now : Nat) (sid : String) (stc : StorageState) (str : RagState)
    (stn : CodeNotesState) (sd : RagSession)
    (hr : rag_load_session_data sid str = some sd)
    (hn : (lookupA sid stn.sessions_data).isSome) :
    (lookupA sid (delete_session_route now sid stc).chat_sessions = none ∧
     lookupA sid (delete_session_route now sid stc).session_index = none ∧
     lookupA sid (delete_session_route now sid stc).sessionFiles = none ∧
     (delete_session_route now sid stc).indexFile =
       some { sessions := eraseA sid stc.session_index,
              last_saved := now,
              total_sessions := (eraseA sid stc.session_index).length }) ∧
    ((rag_delete_session_service sid str).1 =
        Except.ok "Session deleted successfully" ∧
     lookupA sid (rag_delete_session_service sid str).2.sessionFiles = none ∧
     lookupA sid (rag_delete_session_service sid str).2.vectorFiles = none ∧
     (∀ f ∈ (rag_delete_session_service sid str).2.documentFiles,
        f.1 ≠ sid)) ∧
    ((∃ msg, (cn_delete_session_service sid stn).1 = Except.ok msg) ∧
     lookupA sid (cn_delete_session_service sid stn).2.sessions_data = none ∧
     (∀ p ∈ (cn_delete_session_service sid stn).2.session_ids_map,
        p.2 ≠ sid) ∧
     (∀ f ∈ (cn_delete_session_service sid stn).2.session_folders, f ≠ sid) ∧
     (cn_delete_session_service sid stn).2.faiss_vectors = stn.faiss_vectors ∧
     (∀ embed q k, sid ∉ search_similar_code embed
        (cn_delete_session_service sid stn).2 q k)) := by
  have hrag : rag_delete_session_service sid str =
      (Except.ok "Session deleted successfully",
       { str with
         sessionFiles := eraseA sid str.sessionFiles,
         vectorFiles := eraseA sid str.vectorFiles,
         documentFiles :=
           str.documentFiles.filter (fun f => decide (f.1 ≠ sid)) }) := by
    rw [rag_delete_session_service, hr]
  have hcn : cn_delete_session_service sid stn =
      (Except.ok ("Session " ++ sid ++ " deleted successfully"),
       { stn with
         sessions_data := eraseA sid stn.sessions_data,
         session_ids_map :=
           stn.session_ids_map.filter (fun p => decide (p.2 ≠ sid)),
         session_folders :=
           stn.session_folders.filter (fun f => decide (f ≠ sid)) }) := by
    rw [cn_delete_session_service, if_pos hn]
  refine ⟨⟨?_, ?_, ?_, rfl⟩, ⟨?_, ?_, ?_, ?_⟩, ⟨?_, ?_, ?_, ?_, ?_, ?_⟩⟩
  · exact lookupA_eraseA_self sid stc.chat_sessions
  · exact lookupA_eraseA_self sid stc.session_index
  · exact lookupA_eraseA_self sid stc.sessionFiles
  · rw [hrag]
  · rw [hrag]
    exact lookupA_eraseA_self sid str.sessionFiles
  · rw [hrag]
    exact lookupA_eraseA_self sid str.vectorFiles
  · intro f hf
    rw [hrag] at hf
    exact of_decide_eq_true (List.mem_filter.1 hf).2
  · exact ⟨"Session " ++ sid ++ " deleted successfully", by rw [hcn]⟩
  · rw [hcn]
    exact lookupA_eraseA_self sid stn.sessions_data
  · intro p hp
    rw [hcn] at hp
    exact of_decide_eq_true (List.mem_filter.1 hp).2
  · intro f hf
    rw [hcn] at hf
    exact of_decide_eq_true (List.mem_filter.1 hf).2
  · rw [hcn]
  · intro embed q k hs
    rcases search_similar_code_mem embed _ q k hs with ⟨p, hp, hpe⟩
    rw [hcn] at hp
    exact of_decide_eq_true (List.mem_filter.1 hp).2 hpe

/-- A one-session chat storage state keyed "s". -/
def stChatS : StorageState :=
  { chat_sessions := [("s", chatRec0)],
    session_index := [("s",
      { caption := "Hello", created_at := 1, last_accessed := 2,
        message_count := 1, last_saved := 3 })],
    sessionFiles := [("s", chatRec0)], indexFile := none }

/-- A one-session code-notes state whose sole vector belongs to session s. -/
def cnOne : CodeNotesState :=
  { sessions_data := [("s", "payload")],
    faiss_vectors := [[1, 0]],
    session_ids_map := [(0, "s")],
    session_folders := ["s"] }

theorem C6_witness :
    lookupA "s" (delete_session_route 3 "s" stChatS).chat_sessions = none ∧
    lookupA "s" (delete_session_route 3 "s" stChatS).session_index = none ∧
    lookupA "s" (delete_session_route 3 "s" stChatS).sessionFiles = none ∧
    (rag_delete_session_service "s" stAB).1 =
      Except.ok "Session deleted successfully" ∧
    lookupA "s" (rag_delete_session_service "s" stAB).2.sessionFiles = none ∧
    lookupA "s" (rag_delete_session_service "s" stAB).2.vectorFiles = none ∧
    lookupA "s" (cn_delete_session_service "s" cnOne).2.sessions_data = none ∧
    (cn_delete_session_service "s" cnOne).2.faiss_vectors
      = cnOne.faiss_vectors := by
  have h := C6_delete_everywhere_amended 3 "s" stChatS stAB cnOne sdAB
    (by decide) (by decide)
  exact ⟨h.1.1, h.1.2.1, h.1.2.2.1, h.2.1.1, h.2.1.2.1, h.2.1.2.2.1,
    h.2.2.2.1, h.2.2.2.2.2.2.1⟩

/-- C6 counterexample: deleting session s from the concrete code-notes state
cnOne clears the position map but leaves the session's embedding vector in
the FAISS index (ntotal stays 1), so the vector records associated with the
entity are NOT removed from the vector index. -/
theorem C6_cn_vectors_remain_counterexample :
    (cn_delete_session_service "s" cnOne).2.session_ids_map = [] ∧
    (cn_delete_session_service "s" cnOne).2.faiss_vectors = [[1, 0]] := by
  constructor
  · decide
  · decide

/-- C10 (confirmed): delete_history_service removes exactly the named
history — the documents map, every other history, the vector-store
artifacts and the document files are untouched (only updated_at is
restamped by the save) — and an unknown history id yields the
"History not found" error with the persisted state unchanged. -/
theorem C10_delete_history_frame (now : Nat) (sid hid : String)
    (st : RagState) (sd : RagSession)
    (hsd : rag_load_session_data sid st = some sd) :
    ((lookupA hid sd.histories).isSome →
      (delete_history_service now sid hid st).1 =
        Except.ok "History deleted successfully" ∧
      rag_load_session_data sid (delete_history_service now sid hid st).2 =
        some { sd with histories := eraseA hid sd.histories,
                       updated_at := now } ∧
      lookupA hid (eraseA hid sd.histories) = none ∧
      (∀ h2, h2 ≠ hid →
        lookupA h2 (eraseA hid sd.histories) = lookupA h2 sd.histories) ∧
      ({ sd with histories := eraseA hid sd.histories,
                 updated_at := now } : RagSession).documents = sd.documents ∧
      (delete_history_service now sid hid st).2.vectorFiles = st.vectorFiles ∧
      (delete_history_service now sid hid st).2.documentFiles
        = st.documentFiles ∧
      (∀ sid2, sid2 ≠ sid →
        lookupA sid2 (delete_history_service now sid hid st).2.sessionFiles =
          lookupA sid2 st.sessionFiles)) ∧
    (lookupA hid sd.histories = none →
      (delete_history_service now sid hid st).1 =
        Except.error "History not found" ∧
      (delete_history_service now sid hid st).2 = st) := by
  constructor
  · intro hhist
    have hrun : delete_history_service now sid hid st =
        (Except.ok "History deleted successfully",
         rag_save_session_data now sid
           { sd with histories := eraseA hid sd.histories } st) := by
      rw [delete_history_service, hsd]
      simp only [hhist, if_true]
    refine ⟨by rw [hrun], ?_, lookupA_eraseA_self hid sd.histories,
      fun h2 hne => lookupA_eraseA_ne sd.histories hne, rfl,
      by rw [hrun]; rfl, by rw [hrun]; rfl, ?_⟩
    · rw [hrun]
      show lookupA sid (insertA sid _ st.sessionFiles) = _
      rw [lookupA_insertA_self]
    · intro sid2 hne
      rw [hrun]
      show lookupA sid2 (insertA sid _ st.sessionFiles) = _
      rw [lookupA_insertA_ne _ _ hne]
  · intro hmiss
    have hrun : delete_history_service now sid hid st =
        (Except.error "History not found", st) := by
      rw [delete_history_service, hsd]
      simp [hmiss]
    exact ⟨by rw [hrun], by rw [hrun]⟩

/-- A RAG history fixture. -/
def histFor (hid : String) : RagHistory :=
  { history_id := hid, caption := "Topic", created_at := 0, updated_at := 1,
    messages := [{ role := "user", content := "q", timestamp := 0,
                   related_chunks := none }] }

/-- sdAB with two chat histories h1 and h2. -/
def sdH : RagSession :=
  { sdAB with histories := [("h1", histFor "h1"), ("h2", histFor "h2")] }

/-- The durable RAG state holding sdH. -/
def stH : RagState :=
  { sessionFiles := [("s", sdH)], vectorFiles := [("s", vsAB)],
    documentFiles := [("s", "A", "a.txt"), ("s", "B", "b.txt")] }

theorem C10_witness :
    (delete_history_service 9 "s" "h1" stH).1 =
      Except.ok "History deleted successfully" ∧
    rag_load_session_data "s" (delete_history_service 9 "s" "h1" stH).2 =
      some { sdH with histories := eraseA "h1" sdH.histories,
                      updated_at := 9 } ∧
    lookupA "h1" (eraseA "h1" sdH.histories) = none ∧
    (delete_history_service 9 "s" "h1" stH).2.vectorFiles = stH.vectorFiles ∧
    (delete_history_service 9 "s" "h1" stH).2.documentFiles
      = stH.documentFiles := by
  have h := C10_delete_history_frame 9 "s" "h1" stH sdH (by decide)
  have h2 := h.1 (by decide)
  exact ⟨h2.1, h2.2.1, h2.2.2.1, h2.2.2.2.2.2.1, h2.2.2.2.2.2.2.1⟩

end AIAssist
